import Mathlib

/-!
Shallow embedding of `idb/cli/commands/approve.py` (FBSimulatorControl).

The unit is a CLI subcommand with two pieces:
* the command definition (`name`, `description`, `add_parser_arguments`),
  modelled as declarative data mirroring each `parser.add_argument` call;
* the executor (`run_with_client`), modelled as a function from the parsed
  arguments and an abstract client to the list of observable events the
  Python coroutine performs, in order: printing lines, calling
  `client.approve`, exiting the process, or letting a client fault escape.
-/

/-- Parsed arguments: the `argparse.Namespace` fields the command reads.
`scheme` is `none` when `--scheme` was not supplied (argparse default `None`). -/
structure ApproveArgs where
  bundle_id : String
  permissions : List String
  scheme : Option String
deriving Repr, DecidableEq

/-- Python truthiness of `args.scheme` negated: `not args.scheme` is true
exactly when the value is `None` or the empty string. -/
def schemeAbsent : Option String → Bool
  | none => true
  | some s => s.isEmpty

/-- The tuple handed to `client.approve(bundle_id=..., permissions=set(...), scheme=...)`.
`permissions` is a finite set, mirroring Python's `set(args.permissions)`. -/
structure ApprovalRequest where
  bundle_id : String
  permissions : Finset String
  scheme : Option String
deriving DecidableEq

/-- Observable events of one executor invocation, in program order.
`ε` is the type of faults the external client can raise. -/
inductive Event (ε : Type) where
  | printStdout (line : String)
  | printStderr (line : String)
  | callApprove (req : ApprovalRequest)
  | exitProc (code : Nat)
  | raiseFault (e : ε)
deriving DecidableEq

/-- The diagnostic printed by `run_with_client` when `url` is requested
without a scheme. -/
def missingSchemeDiagnostic : String :=
  "You need to specify --scheme when approving url permissions"

/-- Construction of the approval request from the parsed arguments:
`bundle_id=args.bundle_id, permissions=set(args.permissions), scheme=args.scheme`. -/
def mkRequest (args : ApproveArgs) : ApprovalRequest :=
  ⟨args.bundle_id, args.permissions.toFinset, args.scheme⟩

/-- `ApproveCommand.run_with_client`, embedded as the ordered event trace:

```python
if "url" in args.permissions and not args.scheme:
    print("You need to specify --scheme when approving url permissions")
    exit(1)
await client.approve(bundle_id=args.bundle_id,
                     permissions=set(args.permissions),
                     scheme=args.scheme)
```

The abstract client either completes (`Except.ok`) or raises a fault
(`Except.error`), which the executor does not handle. -/
def run_with_client {ε : Type} (args : ApproveArgs)
    (client : ApprovalRequest → Except ε Unit) : List (Event ε) :=
  if args.permissions.contains "url" && schemeAbsent args.scheme then
    [Event.printStdout missingSchemeDiagnostic, Event.exitProc 1]
  else
    Event.callApprove (mkRequest args) ::
      (match client (mkRequest args) with
        | Except.ok _ => []
        | Except.error e => [Event.raiseFault e])

/-- `ApproveCommand.name`. -/
def approveCommandName : String := "approve"

/-- `ApproveCommand.description`. -/
def approveCommandDescription : String := "Approve permissions for an app"

/-- One `parser.add_argument` call: the argument's name (a leading `--`
marks a named optional flag), whether it is positional, its `nargs`
specification, its `choices` restriction, its default, and its help text. -/
structure ArgumentDecl where
  name : String
  positional : Bool
  nargs : Option String
  choices : Option (List String)
  defaultValue : Option String
  help : String
deriving DecidableEq

/-- `ApproveCommand.add_parser_arguments`, as the ordered list of
`add_argument` calls it performs (argparse assigns default `None` when no
`default=` keyword is given). -/
def approveParserArguments : List ArgumentDecl :=
  [ ⟨"bundle_id", true, none, none, none, "App's bundle id"⟩,
    ⟨"permissions", true, some "+", some ["photos", "camera", "contacts", "url"], none,
      "Permissions to approve"⟩,
    ⟨"--scheme", false, none, none, none, "Url scheme registered by the app to approve"⟩ ]

/-- Whether an event is a call to the client's approve operation. -/
def isApproveCall {ε : Type} : Event ε → Bool
  | Event.callApprove _ => true
  | _ => false

/-- Number of client approve calls in a trace. -/
def countApproveCalls {ε : Type} (tr : List (Event ε)) : Nat :=
  (tr.filter isApproveCall).length

theorem guard_eq_false {args : ApproveArgs}
    (h : ¬("url" ∈ args.permissions ∧ schemeAbsent args.scheme = true)) :
    (args.permissions.contains "url" && schemeAbsent args.scheme) = false := by
  rw [Bool.and_eq_false_iff]
  by_cases hm : "url" ∈ args.permissions
  · right
    rcases Bool.eq_false_or_eq_true (schemeAbsent args.scheme) with hs | hs
    · exact absurd ⟨hm, hs⟩ h
    · exact hs
  · left
    simpa using hm

theorem run_dispatch_eq {ε : Type} (args : ApproveArgs)
    (client : ApprovalRequest → Except ε Unit)
    (h : ¬("url" ∈ args.permissions ∧ schemeAbsent args.scheme = true)) :
    run_with_client args client =
      Event.callApprove (mkRequest args) ::
        (match client (mkRequest args) with
          | Except.ok _ => []
          | Except.error e => [Event.raiseFault e]) := by
  unfold run_with_client
  rw [guard_eq_false h]
  rfl

theorem run_abort_eq {ε : Type} (args : ApproveArgs)
    (client : ApprovalRequest → Except ε Unit)
    (hurl : "url" ∈ args.permissions)
    (habs : schemeAbsent args.scheme = true) :
    run_with_client args client =
      [Event.printStdout missingSchemeDiagnostic, Event.exitProc 1] := by
  unfold run_with_client
  have hc : args.permissions.contains "url" = true := by
    simpa using hurl
  rw [hc, habs]
  rfl

/-- C1: if the permission set contains `url` and the scheme is absent
(unset or empty), the executor does not call the client's approve
operation, prints the diagnostic telling the user to supply `--scheme`,
and terminates with exit status 1 — the whole trace is exactly that print
followed by the exit. -/
theorem c1_url_without_scheme_aborts {ε : Type} (args : ApproveArgs)
    (client : ApprovalRequest → Except ε Unit)
    (hurl : "url" ∈ args.permissions)
    (habs : schemeAbsent args.scheme = true) :
    run_with_client args client =
      [Event.printStdout missingSchemeDiagnostic, Event.exitProc 1] ∧
    (∀ ev ∈ run_with_client args client, isApproveCall ev = false) := by
  have htr := run_abort_eq args client hurl habs
  refine ⟨htr, ?_⟩
  intro ev hev
  rw [htr] at hev
  simp only [List.mem_cons, List.not_mem_nil, or_false] at hev
  rcases hev with h | h
  · rw [h]; rfl
  · rw [h]; rfl

/-- C1 witness: `bundle_id="com.example.app"`, `permissions=["url"]`,
`scheme=None` takes the abort path. -/
theorem c1_url_without_scheme_aborts_witness :
    run_with_client (ε := String) ⟨"com.example.app", ["url"], none⟩
        (fun _ => Except.ok ()) =
      [Event.printStdout missingSchemeDiagnostic, Event.exitProc 1] ∧
    (∀ ev ∈ run_with_client (ε := String) ⟨"com.example.app", ["url"], none⟩
        (fun _ => Except.ok ()), isApproveCall ev = false) :=
  c1_url_without_scheme_aborts ⟨"com.example.app", ["url"], none⟩
    (fun _ => Except.ok ()) (by decide) (by decide)

/-- C2: on every dispatching invocation the permission set passed to the
client is exactly the set of tokens supplied on the command line — same
membership, nothing added or removed — and any argument list with the same
bundle id, same scheme and the same token membership (any reordering or
duplication) yields the identical request. -/
theorem c2_permission_set_exact {ε : Type} (args : ApproveArgs)
    (client : ApprovalRequest → Except ε Unit)
    (hdisp : ¬("url" ∈ args.permissions ∧ schemeAbsent args.scheme = true)) :
    (∃ rest, run_with_client args client =
        Event.callApprove (mkRequest args) :: rest) ∧
    (∀ p : String, p ∈ (mkRequest args).permissions ↔ p ∈ args.permissions) ∧
    (∀ args2 : ApproveArgs, args2.bundle_id = args.bundle_id →
        args2.scheme = args.scheme →
        (∀ p : String, p ∈ args2.permissions ↔ p ∈ args.permissions) →
        mkRequest args2 = mkRequest args) := by
  refine ⟨⟨_, run_dispatch_eq args client hdisp⟩, ?_, ?_⟩
  · intro p
    simp [mkRequest]
  · intro args2 hb hs hmem
    unfold mkRequest
    rw [hb, hs]
    congr 1
    ext p
    simpa using hmem p

/-- C2 witness: `["url", "photos", "url"]` with scheme `"myapp"` dispatches
the request whose permission set has exactly the members `url` and
`photos`, and the reordered, deduplicated list `["photos", "url"]` builds
the identical request. -/
theorem c2_permission_set_exact_witness :
    (∃ rest, run_with_client (ε := String)
        ⟨"com.example.app", ["url", "photos", "url"], some "myapp"⟩
        (fun _ => Except.ok ()) =
        Event.callApprove
          (mkRequest ⟨"com.example.app", ["url", "photos", "url"], some "myapp"⟩) :: rest) ∧
    (∀ p : String,
        p ∈ (mkRequest ⟨"com.example.app", ["url", "photos", "url"], some "myapp"⟩).permissions ↔
        p ∈ (["url", "photos", "url"] : List String)) ∧
    (∀ args2 : ApproveArgs, args2.bundle_id = "com.example.app" →
        args2.scheme = some "myapp" →
        (∀ p : String, p ∈ args2.permissions ↔ p ∈ (["url", "photos", "url"] : List String)) →
        mkRequest args2 =
          mkRequest ⟨"com.example.app", ["url", "photos", "url"], some "myapp"⟩) :=
  c2_permission_set_exact ⟨"com.example.app", ["url", "photos", "url"], some "myapp"⟩
    (fun _ => Except.ok ()) (by decide)

/-- C3: when the permission set does not contain `url`, the executor
dispatches the approval request with the scheme exactly as supplied
(including absent), and the missing-scheme diagnostic is never printed. -/
theorem c3_no_url_dispatches_as_supplied {ε : Type} (args : ApproveArgs)
    (client : ApprovalRequest → Except ε Unit)
    (hurl : "url" ∉ args.permissions) :
    (∃ rest, run_with_client args client =
        Event.callApprove (mkRequest args) :: rest) ∧
    (mkRequest args).scheme = args.scheme ∧
    (mkRequest args).bundle_id = args.bundle_id ∧
    (∀ ev ∈ run_with_client args client,
        ev ≠ Event.printStdout missingSchemeDiagnostic) := by
  have hdisp : ¬("url" ∈ args.permissions ∧ schemeAbsent args.scheme = true) := by
    intro hc
    exact hurl hc.1
  refine ⟨⟨_, run_dispatch_eq args client hdisp⟩, rfl, rfl, ?_⟩
  intro ev hev
  rw [run_dispatch_eq args client hdisp] at hev
  simp only [List.mem_cons] at hev
  rcases hev with h | h
  · rw [h]
    intro hcontra
    cases hcontra
  · intro hcontra
    rw [hcontra] at h
    cases hcl : client (mkRequest args) <;> rw [hcl] at h <;> simp at h

/-- C3 witness: `permissions=["camera"]` with scheme absent dispatches the
request with scheme `none` and never prints the diagnostic. -/
theorem c3_no_url_dispatches_as_supplied_witness :
    (∃ rest, run_with_client (ε := String) ⟨"com.example.app", ["camera"], none⟩
        (fun _ => Except.ok ()) =
        Event.callApprove (mkRequest ⟨"com.example.app", ["camera"], none⟩) :: rest) ∧
    (mkRequest ⟨"com.example.app", ["camera"], none⟩).scheme = none ∧
    (mkRequest ⟨"com.example.app", ["camera"], none⟩).bundle_id = "com.example.app" ∧
    (∀ ev ∈ run_with_client (ε := String) ⟨"com.example.app", ["camera"], none⟩
        (fun _ => Except.ok ()),
        ev ≠ Event.printStdout missingSchemeDiagnostic) :=
  c3_no_url_dispatches_as_supplied ⟨"com.example.app", ["camera"], none⟩
    (fun _ => Except.ok ()) (by decide)

/-- C4: when the permission set contains `url` and the scheme is any
non-empty text, the executor dispatches the approval request carrying that
exact scheme value together with the supplied bundle identifier. -/
theorem c4_url_with_scheme_dispatches {ε : Type} (args : ApproveArgs)
    (client : ApprovalRequest → Except ε Unit) (s : String)
    (hurl : "url" ∈ args.permissions)
    (hs : args.scheme = some s)
    (hne : s ≠ "") :
    ∃ rest, run_with_client args client =
      Event.callApprove ⟨args.bundle_id, args.permissions.toFinset, some s⟩ :: rest := by
  have habs : schemeAbsent args.scheme = false := by
    rw [hs]
    show s.isEmpty = false
    rcases Bool.eq_false_or_eq_true s.isEmpty with h | h
    · exact absurd ((String.isEmpty_iff s).mp h) hne
    · exact h
  have hdisp : ¬("url" ∈ args.permissions ∧ schemeAbsent args.scheme = true) := by
    intro hc
    rw [habs] at hc
    exact Bool.false_ne_true hc.2
  have hreq : mkRequest args = ⟨args.bundle_id, args.permissions.toFinset, some s⟩ := by
    unfold mkRequest
    rw [hs]
  exact ⟨_, by rw [run_dispatch_eq args client hdisp, hreq]⟩

/-- C4 witness: Scenario C — `bundle_id="com.example.app"`,
`permissions=["url", "photos"]`, `scheme="myapp"` dispatches the request
carrying scheme `"myapp"`. -/
theorem c4_url_with_scheme_dispatches_witness :
    ∃ rest, run_with_client (ε := String)
        ⟨"com.example.app", ["url", "photos"], some "myapp"⟩ (fun _ => Except.ok ()) =
      Event.callApprove
        ⟨"com.example.app", (["url", "photos"] : List String).toFinset, some "myapp"⟩ :: rest :=
  c4_url_with_scheme_dispatches ⟨"com.example.app", ["url", "photos"], some "myapp"⟩
    (fun _ => Except.ok ()) "myapp" (by decide) rfl (by decide)

/-- C5: when the client's approve operation fails, the fault escapes the
executor unchanged: the trace is the client call followed by that exact
fault — nothing is printed, no exit-with-1 occurs, and the fault value is
not translated. -/
theorem c5_fault_propagates_unchanged {ε : Type} (args : ApproveArgs)
    (client : ApprovalRequest → Except ε Unit) (e : ε)
    (hdisp : ¬("url" ∈ args.permissions ∧ schemeAbsent args.scheme = true))
    (hfault : client (mkRequest args) = Except.error e) :
    run_with_client args client =
      [Event.callApprove (mkRequest args), Event.raiseFault e] ∧
    (∀ ev ∈ run_with_client args client,
        (∀ line, ev ≠ Event.printStdout line) ∧ ∀ c, ev ≠ Event.exitProc c) := by
  have htr : run_with_client args client =
      [Event.callApprove (mkRequest args), Event.raiseFault e] := by
    rw [run_dispatch_eq args client hdisp, hfault]
  refine ⟨htr, ?_⟩
  intro ev hev
  rw [htr] at hev
  simp only [List.mem_cons, List.not_mem_nil, or_false] at hev
  rcases hev with h | h <;> rw [h] <;>
    refine ⟨fun line hc => ?_, fun c hc => ?_⟩ <;> cases hc

/-- C5 witness: Scenario D — the client raises `"device not found"`; the
trace is the call followed by that fault, with no print and no exit. -/
theorem c5_fault_propagates_unchanged_witness :
    run_with_client (ε := String) ⟨"com.example.app", ["camera"], none⟩
        (fun _ => Except.error "device not found") =
      [Event.callApprove (mkRequest ⟨"com.example.app", ["camera"], none⟩),
       Event.raiseFault "device not found"] ∧
    (∀ ev ∈ run_with_client (ε := String) ⟨"com.example.app", ["camera"], none⟩
        (fun _ => Except.error "device not found"),
        (∀ line, ev ≠ Event.printStdout line) ∧ ∀ c, ev ≠ Event.exitProc c) :=
  c5_fault_propagates_unchanged ⟨"com.example.app", ["camera"], none⟩
    (fun _ => Except.error "device not found") "device not found" (by decide) rfl

/-- C6: the command definition exposes the stable name `approve` and
declares exactly three arguments: a positional free-form `bundle_id`
(single value, unconstrained), positional `permissions` taking one or more
values each constrained to the vocabulary photos/camera/contacts/url, and
an optional named flag `--scheme` with no default. -/
theorem c6_command_grammar :
    approveCommandName = "approve" ∧
    approveParserArguments.length = 3 ∧
    (∃ d ∈ approveParserArguments,
        d.name = "bundle_id" ∧ d.positional = true ∧ d.nargs = none ∧ d.choices = none) ∧
    (∃ d ∈ approveParserArguments,
        d.name = "permissions" ∧ d.positional = true ∧ d.nargs = some "+" ∧
        d.choices = some ["photos", "camera", "contacts", "url"]) ∧
    (∃ d ∈ approveParserArguments,
        d.name = "--scheme" ∧ d.positional = false ∧ d.nargs = none ∧
        d.choices = none ∧ d.defaultValue = none) := by
  decide

/-- C7: on every valid invocation the executor issues exactly one client
approve call, and when that call succeeds the trace is that single call —
no further output of any kind. -/
theorem c7_exactly_one_call {ε : Type} (args : ApproveArgs)
    (client : ApprovalRequest → Except ε Unit)
    (hvalid : ¬("url" ∈ args.permissions ∧ schemeAbsent args.scheme = true)) :
    countApproveCalls (run_with_client args client) = 1 ∧
    (∀ u : Unit, client (mkRequest args) = Except.ok u →
        run_with_client args client = [Event.callApprove (mkRequest args)]) := by
  constructor
  · rw [run_dispatch_eq args client hvalid]
    cases hcl : client (mkRequest args) <;>
      simp [countApproveCalls, isApproveCall]
  · intro u hok
    rw [run_dispatch_eq args client hvalid, hok]

/-- C7 witness: Scenario A — `permissions=["camera"]`, scheme absent,
client succeeds: exactly one call and a silent trace. -/
theorem c7_exactly_one_call_witness :
    countApproveCalls (run_with_client (ε := String) ⟨"com.example.app", ["camera"], none⟩
        (fun _ => Except.ok ())) = 1 ∧
    (∀ u : Unit,
        (fun _ : ApprovalRequest => (Except.ok () : Except String Unit))
            (mkRequest ⟨"com.example.app", ["camera"], none⟩) = Except.ok u →
        run_with_client (ε := String) ⟨"com.example.app", ["camera"], none⟩
            (fun _ => Except.ok ()) =
          [Event.callApprove (mkRequest ⟨"com.example.app", ["camera"], none⟩)]) :=
  c7_exactly_one_call ⟨"com.example.app", ["camera"], none⟩
    (fun _ => Except.ok ()) (by decide)

/-- C8: no non-emptiness check on the bundle identifier — with
`bundle_id = ""` and the scheme validation passing, the request is still
dispatched carrying the empty bundle identifier unchanged. -/
theorem c8_empty_bundle_id_dispatched {ε : Type} (args : ApproveArgs)
    (client : ApprovalRequest → Except ε Unit)
    (hempty : args.bundle_id = "")
    (hvalid : ¬("url" ∈ args.permissions ∧ schemeAbsent args.scheme = true)) :
    ∃ rest, run_with_client args client =
      Event.callApprove ⟨"", args.permissions.toFinset, args.scheme⟩ :: rest := by
  have hreq : mkRequest args = ⟨"", args.permissions.toFinset, args.scheme⟩ := by
    unfold mkRequest
    rw [hempty]
  exact ⟨_, by rw [run_dispatch_eq args client hvalid, hreq]⟩

/-- C8 witness: `bundle_id=""`, `permissions=["photos"]` dispatches with
the empty bundle identifier. -/
theorem c8_empty_bundle_id_dispatched_witness :
    ∃ rest, run_with_client (ε := String) ⟨"", ["photos"], none⟩ (fun _ => Except.ok ()) =
      Event.callApprove ⟨"", (["photos"] : List String).toFinset, none⟩ :: rest :=
  c8_empty_bundle_id_dispatched ⟨"", ["photos"], none⟩
    (fun _ => Except.ok ()) rfl (by decide)

/-- C9: on the validation-failure path the diagnostic goes to the standard
output stream — there is a stdout print event at an index strictly before
the exit event, and no stderr print event occurs anywhere in the trace. -/
theorem c9_diagnostic_stdout_before_exit {ε : Type} (args : ApproveArgs)
    (client : ApprovalRequest → Except ε Unit)
    (hurl : "url" ∈ args.permissions)
    (habs : schemeAbsent args.scheme = true) :
    ∃ i j : Nat, i < j ∧
      (run_with_client args client)[i]? = some (Event.printStdout missingSchemeDiagnostic) ∧
      (run_with_client args client)[j]? = some (Event.exitProc 1) ∧
      (∀ ev ∈ run_with_client args client, ∀ line, ev ≠ Event.printStderr line) := by
  refine ⟨0, 1, Nat.zero_lt_one, ?_, ?_, ?_⟩
  · rw [run_abort_eq args client hurl habs]
    rfl
  · rw [run_abort_eq args client hurl habs]
    rfl
  · intro ev hev line
    rw [run_abort_eq args client hurl habs] at hev
    simp only [List.mem_cons, List.not_mem_nil, or_false] at hev
    rcases hev with h | h <;> rw [h] <;> intro hc <;> cases hc

/-- C9 witness: `permissions=["url"]` with empty scheme string takes the
failure path; print precedes exit and nothing goes to stderr. -/
theorem c9_diagnostic_stdout_before_exit_witness :
    ∃ i j : Nat, i < j ∧
      (run_with_client (ε := String) ⟨"com.example.app", ["url"], some ""⟩
          (fun _ => Except.ok ()))[i]? =
        some (Event.printStdout missingSchemeDiagnostic) ∧
      (run_with_client (ε := String) ⟨"com.example.app", ["url"], some ""⟩
          (fun _ => Except.ok ()))[j]? = some (Event.exitProc 1) ∧
      (∀ ev ∈ run_with_client (ε := String) ⟨"com.example.app", ["url"], some ""⟩
          (fun _ => Except.ok ()), ∀ line, ev ≠ Event.printStderr line) :=
  c9_diagnostic_stdout_before_exit ⟨"com.example.app", ["url"], some ""⟩
    (fun _ => Except.ok ()) (by decide) (by decide)

/-- C10: request construction is deterministic in the parsed arguments —
for the same parsed arguments, any two invocations (over any client
behaviours and fault types) either both take the identical
validation-failure path or both dispatch the identical approval request
tuple. -/
theorem c10_request_construction_deterministic {ε₁ ε₂ : Type} (args : ApproveArgs)
    (client1 : ApprovalRequest → Except ε₁ Unit)
    (client2 : ApprovalRequest → Except ε₂ Unit) :
    (run_with_client args client1 =
        [Event.printStdout missingSchemeDiagnostic, Event.exitProc 1] ∧
     run_with_client args client2 =
        [Event.printStdout missingSchemeDiagnostic, Event.exitProc 1]) ∨
    (∃ rest1 rest2,
        run_with_client args client1 = Event.callApprove (mkRequest args) :: rest1 ∧
        run_with_client args client2 = Event.callApprove (mkRequest args) :: rest2) := by
  by_cases h : "url" ∈ args.permissions ∧ schemeAbsent args.scheme = true
  · left
    exact ⟨run_abort_eq args client1 h.1 h.2, run_abort_eq args client2 h.1 h.2⟩
  · right
    exact ⟨_, _, run_dispatch_eq args client1 h, run_dispatch_eq args client2 h⟩
